import Mathlib

/-!
Verification model of a small polyphonic synthesizer core.

The program consists of two files: `Voice.js` (a class owning one note's
signal chain — a sine fundamental oscillator, two sawtooth harmonics each
behind a 0.5 gain stage, and an amplitude-envelope gain stage — with
`start` / `stop` / `dispose` methods) and `synth.js` (a registry mapping
MIDI note numbers to active voices, with `mtof`, `startNote`, `stopNote`).

The host audio subsystem (Web Audio) is replaced by a resource-tracking
fake: a `World` holds the host clock, a ledger of every allocated node,
the connection graph, and the voice object's fields.  Times, gain values
and amplitudes are rationals; oscillator frequencies are reals (they come
from `mtof`, which is irrational on most inputs).

Host-model conventions, matching the Web Audio specification as browsers
implement it for this program:
* an `AudioParam` is a default value plus a list of automation events;
  its computed value follows linear-ramp semantics (`valueFrom` below);
* `cancelScheduledValues t` removes every event whose time is `≥ t`;
* the `value` getter returns the parameter's computed value at the
  current time as of the last render quantum — so a read performed in the
  same task as a cancellation still sees the schedule that was in force
  when the task began;
* a started source whose scheduled stop time has been reached emits one
  `ended` event, which runs the installed callback.
-/

/-- One scheduled automation event on an audio parameter
(`setValueAtTime` / `linearRampToValueAtTime`). -/
inductive AutoEvent
  | setValue (time value : ℚ)
  | linearRamp (time value : ℚ)
deriving DecidableEq

/-- The timestamp of an automation event. -/
def AutoEvent.time : AutoEvent → ℚ
  | .setValue t _ => t
  | .linearRamp t _ => t

/-- Value of an automation timeline at time `t`, starting from the anchor
value `aVal` set at time `aTime`: Web Audio linear automation semantics.
A `setValue` event holds its value from its timestamp on; a `linearRamp`
event interpolates linearly from the previous event to its own
timestamp, then holds its target. -/
def valueFrom (aTime aVal : ℚ) : List AutoEvent → ℚ → ℚ
  | [], _ => aVal
  | .setValue te ve :: rest, t =>
      if t < te then aVal else valueFrom te ve rest t
  | .linearRamp te ve :: rest, t =>
      if t < te then aVal + (ve - aVal) * (t - aTime) / (te - aTime)
      else valueFrom te ve rest t

/-- Computed value of a parameter with default `d` and event list `es` at
time `t`. -/
def valueAt (d : ℚ) (es : List AutoEvent) (t : ℚ) : ℚ := valueFrom 0 d es t

/-- A node of the fake host audio graph (oscillator or gain stage), with
the bookkeeping used to track resource release.  The two node kinds are
merged into one record; fields irrelevant to a kind keep their defaults. -/
structure Node where
  isOsc : Bool
  freqValue : ℝ
  sawtooth : Bool
  gainValue : ℚ
  gainEvents : List AutoEvent
  started : Bool
  stopAt : Option ℚ
  onended : Bool
  endedFired : Bool
  disconnectCount : ℕ

/-- `createOscillator()` followed by `frequency.setValueAtTime(f, now)`. -/
def Node.newOsc (f : ℝ) : Node :=
  { isOsc := true, freqValue := f, sawtooth := false, gainValue := 1,
    gainEvents := [], started := false, stopAt := none, onended := false,
    endedFired := false, disconnectCount := 0 }

/-- `createGain()`: a gain stage with default gain 1. -/
def Node.newGain : Node :=
  { isOsc := false, freqValue := 0, sawtooth := false, gainValue := 1,
    gainEvents := [], started := false, stopAt := none, onended := false,
    endedFired := false, disconnectCount := 0 }

/-- A connection target: another owned node, or the externally supplied
output node (which the voice does not own). -/
inductive Dest
  | node (i : ℕ)
  | output
deriving DecidableEq

/-- The fields of the `Voice` object (`Voice.js` constructor state plus
the node references created by `start`). -/
structure Voice where
  frequency : ℝ
  maxAmp : ℚ
  attack : ℚ
  decay : ℚ
  sustain : ℚ
  release : ℚ
  osc : Option ℕ
  osc2 : Option ℕ
  osc3 : Option ℕ
  osc2scale : Option ℕ
  osc3scale : Option ℕ
  ampEnv : Option ℕ

/-- The state of one voice's world: host clock, allocation ledger,
connection graph, and the voice object. -/
structure World where
  time : ℚ
  nodes : List Node
  connections : List (ℕ × Dest)
  voice : Voice

/-- A fresh world at host time `t` holding the voice object `v`. -/
def mkWorld (t : ℚ) (v : Voice) : World :=
  { time := t, nodes := [], connections := [], voice := v }

/-- Replace the node at index `i` by `f` of it (out-of-range is a no-op). -/
def modifyIdx (f : Node → Node) : ℕ → List Node → List Node
  | _, [] => []
  | 0, n :: rest => f n :: rest
  | i + 1, n :: rest => n :: modifyIdx f i rest

/-- Apply `f` to the ledger node with index `i`. -/
def World.modifyNode (w : World) (i : ℕ) (f : Node → Node) : World :=
  { w with nodes := modifyIdx f i w.nodes }

/-- The `Voice` constructor (`Voice.js` lines 13–25): store frequency and
peak amplitude, fix the ADSR constants.  No node exists yet. -/
def Voice.construct (freq : ℝ) (maxAmp : ℚ) : Voice :=
  { frequency := freq, maxAmp := maxAmp,
    attack := 0.02, decay := 0.01, sustain := 0.5, release := 0.5,
    osc := none, osc2 := none, osc3 := none,
    osc2scale := none, osc3scale := none, ampEnv := none }

/-- `Voice.start()` (`Voice.js` lines 31–76): create the three sources and
the gain stages, install `dispose` as the fundamental's ended callback,
wire the graph, start the sources, and schedule the attack and decay
ramps on the envelope gain. -/
def Voice.start (w : World) : World :=
  let now := w.time
  -- this.osc: sine oscillator at `frequency`; this.osc.onended = dispose
  let i1 := w.nodes.length
  let w1 := { w with nodes :=
    w.nodes ++ [{ Node.newOsc w.voice.frequency with onended := true }] }
  -- this.osc2: sawtooth at 2 × frequency; this.osc2scale: gain 0.5
  let i2 := w1.nodes.length
  let w2 := { w1 with nodes :=
    w1.nodes ++ [{ Node.newOsc (2 * w.voice.frequency) with sawtooth := true }] }
  let i2s := w2.nodes.length
  let w3 := { w2 with nodes := w2.nodes ++ [{ Node.newGain with gainValue := 0.5 }] }
  -- this.osc3: sawtooth at 3 × frequency; this.osc3scale: gain 0.5
  let i3 := w3.nodes.length
  let w4 := { w3 with nodes :=
    w3.nodes ++ [{ Node.newOsc (3 * w.voice.frequency) with sawtooth := true }] }
  let i3s := w4.nodes.length
  let w5 := { w4 with nodes := w4.nodes ++ [{ Node.newGain with gainValue := 0.5 }] }
  -- this.ampEnv: gain stage; gain.setValueAtTime(0, now)
  let ienv := w5.nodes.length
  let w6 := { w5 with nodes :=
    w5.nodes ++ [{ Node.newGain with gainEvents := [AutoEvent.setValue now 0] }] }
  -- signal routing
  let w7 := { w6 with connections := w6.connections ++
      [(i1, Dest.node ienv), (i2, Dest.node i2s), (i2s, Dest.node ienv),
       (i3, Dest.node i3s), (i3s, Dest.node ienv), (ienv, Dest.output)] }
  -- start the oscillators
  let w8 := ((w7.modifyNode i1 (fun n => { n with started := true })).modifyNode i2
      (fun n => { n with started := true })).modifyNode i3
      (fun n => { n with started := true })
  -- envelope: attack ramp then decay ramp
  let w9 := w8.modifyNode ienv (fun n => { n with gainEvents := n.gainEvents ++
      [AutoEvent.linearRamp (now + w.voice.attack) w.voice.maxAmp,
       AutoEvent.linearRamp (now + w.voice.attack + w.voice.decay)
         (w.voice.sustain * w.voice.maxAmp)] })
  { w9 with voice := { w9.voice with
      osc := some i1, osc2 := some i2, osc3 := some i3,
      osc2scale := some i2s, osc3scale := some i3s, ampEnv := some ienv } }

/-- `Voice.stop()` (`Voice.js` lines 81–97): cancel the pending envelope
automation, pin the envelope's current value, schedule the release ramp
to 0, and schedule all three sources to halt at `release + 0.01` after
now.  `none` models the thrown `TypeError` when `this.ampEnv` (or an
oscillator reference) is not set — i.e. `stop` before `start` or after
`dispose`. -/
def Voice.stop (w : World) : Option World :=
  let now := w.time
  match w.voice.ampEnv with
  | none => none
  | some ienv =>
    match w.nodes.get? ienv with
    | none => none
    | some nenv =>
      -- this.ampEnv.gain.value: the computed value as of the last render,
      -- hence read from the schedule in force when the task began
      let snapshot := valueAt nenv.gainValue nenv.gainEvents now
      -- cancelScheduledValues(now); setValueAtTime(snapshot, now);
      -- linearRampToValueAtTime(0, now + release)
      let w1 := w.modifyNode ienv (fun n =>
        { n with gainEvents := n.gainEvents.filter (fun e => decide (e.time < now)) ++
            [AutoEvent.setValue now snapshot,
             AutoEvent.linearRamp (now + w.voice.release) 0] })
      -- osc.stop(now + release + 0.01), likewise osc2 and osc3
      match w.voice.osc, w.voice.osc2, w.voice.osc3 with
      | some i1, some i2, some i3 =>
        some (((w1.modifyNode i1
            (fun n => { n with stopAt := some (now + w.voice.release + 0.01) })).modifyNode i2
            (fun n => { n with stopAt := some (now + w.voice.release + 0.01) })).modifyNode i3
            (fun n => { n with stopAt := some (now + w.voice.release + 0.01) }))
      | _, _, _ => none

/-- `node.disconnect()`: remove the node's outgoing edges from the graph,
counting the call so that double frees and leaks are observable. -/
def disconnectNode (i : ℕ) (w : World) : World :=
  ({ w with connections := w.connections.filter (fun c => c.1 != i) }).modifyNode i
    (fun n => { n with disconnectCount := n.disconnectCount + 1 })

/-- `Voice.dispose()` (`Voice.js` lines 102–118): disconnect the three
sources, the two harmonic scaling stages and the envelope stage, then
null every reference.  `none` models the crash when a reference is
already unset. -/
def Voice.dispose (w : World) : Option World :=
  match w.voice.osc, w.voice.osc2, w.voice.osc3,
        w.voice.osc2scale, w.voice.osc3scale, w.voice.ampEnv with
  | some i1, some i2, some i3, some i2s, some i3s, some ienv =>
    let w1 := disconnectNode ienv (disconnectNode i3s (disconnectNode i2s
        (disconnectNode i3 (disconnectNode i2 (disconnectNode i1 w)))))
    some { w1 with voice := { w1.voice with
        osc := none, osc2 := none, osc3 := none,
        osc2scale := none, osc3scale := none, ampEnv := none } }
  | _, _, _, _, _, _ => none

/-- Whether a source's ended event is due at host time `t`: its halt was
scheduled at a time `≤ t`, a callback is installed, and the event has not
fired yet (the host fires it once per source). -/
def endedDue (t : ℚ) (n : Node) : Bool :=
  n.onended && !n.endedFired &&
    (match n.stopAt with
     | some ts => decide (ts ≤ t)
     | none => false)

/-- Index of the first node with a due ended event, if any. -/
def findFired (t : ℚ) : List Node → ℕ → Option ℕ
  | [], _ => none
  | n :: rest, i => if endedDue t n then some i else findFired t rest (i + 1)

/-- Advance the host clock to `t`.  A source whose scheduled halt time has
been reached then emits its ended event, which runs the installed
callback — `dispose` bound to the voice.  The program installs exactly
one such callback (on the fundamental oscillator), so at most one is
ever due. -/
def World.advanceTo (t : ℚ) (w : World) : Option World :=
  match findFired t w.nodes 0 with
  | none => some { w with time := t }
  | some i =>
    Voice.dispose (({ w with time := t }).modifyNode i
      (fun n => { n with endedFired := true }))

/-- The registry `activeVoices` of `synth.js`: note number ↦ the state of
that note's voice.  (`synth.js` keeps the voices in one object keyed by
note number; each stored voice owns its disjoint resources.) -/
abbrev Registry := List (ℤ × World)

/-- `mtof` (`synth.js` lines 31–33): 12-tone equal-tempered MIDI note
number to frequency, `440 * 2 ** ((midi - 69) / 12)`. -/
noncomputable def mtof (midi : ℤ) : ℝ := 440 * (2 : ℝ) ^ (((midi : ℝ) - 69) / 12)

/-- `startNote(note)` (`synth.js` lines 40–47): if no voice is active for
`note`, construct a voice at frequency `mtof note` with peak amplitude
`rnd` — the value `Math.random()` returned for this call, passed in
explicitly — store it, and start it at host time `t`.  Otherwise do
nothing. -/
noncomputable def startNote (reg : Registry) (t : ℚ) (note : ℤ) (rnd : ℚ) : Registry :=
  match reg.lookup note with
  | some _ => reg
  | none => (note, Voice.start (mkWorld t (Voice.construct (mtof note) rnd))) :: reg

/-- `stopNote(note)` (`synth.js` lines 54–60): if a voice is active for
`note`, call its `stop` and delete the entry.  The second component
records the `stop` call made on the removed voice (`none` when no voice
was found, so `stop` was not called). -/
def stopNote (reg : Registry) (note : ℤ) : Registry × Option (Option World) :=
  match reg.lookup note with
  | none => (reg, none)
  | some w => (reg.filter (fun p => p.1 != note), some (Voice.stop w))

/-- The envelope gain stage's event list, if the stage exists. -/
def ampEnvEvents (w : World) : Option (List AutoEvent) :=
  w.voice.ampEnv.bind (fun i => (w.nodes.get? i).map Node.gainEvents)

/-- The scheduled halt times of the world's oscillators, in ledger order. -/
def haltTimes (w : World) : List (Option ℚ) :=
  w.nodes.filterMap (fun n => if n.isOsc then some n.stopAt else none)

/-- The envelope schedule produced by `start` at time `t0` for peak
amplitude `M`. -/
def startEvents (t0 M : ℚ) : List AutoEvent :=
  [AutoEvent.setValue t0 0,
   AutoEvent.linearRamp (t0 + 0.02) M,
   AutoEvent.linearRamp (t0 + 0.02 + 0.01) (0.5 * M)]

/-- The envelope schedule after `stop` at time `t1` on a voice started at
`t0`: the events before `t1` survive the cancellation, then the current
value is pinned at `t1` and a release ramp to 0 ends at `t1 + 0.5`. -/
def stopEvents (t0 t1 M : ℚ) : List AutoEvent :=
  (startEvents t0 M).filter (fun e => decide (e.time < t1)) ++
  [AutoEvent.setValue t1 (valueAt 1 (startEvents t0 M) t1),
   AutoEvent.linearRamp (t1 + 0.5) 0]

/-- Construct at `t0`, start, advance the clock to `t1`, stop. -/
noncomputable def stoppedVoice (f : ℝ) (M t0 t1 : ℚ) : Option World :=
  (World.advanceTo t1 (Voice.start (mkWorld t0 (Voice.construct f M)))).bind Voice.stop

/-- The full life cycle: construct, start at `t0`, stop at `t1`, advance
the clock to `t2`. -/
noncomputable def lifecycle (f : ℝ) (M t0 t1 t2 : ℚ) : Option World :=
  (stoppedVoice f M t0 t1).bind (World.advanceTo t2)

/-- The rendered envelope value at time `q` for a voice started at `t0`
and stopped at `t1`: before `t1` the start schedule is in force, from
`t1` on the post-stop schedule is. -/
def renderedEnv (t0 t1 M : ℚ) (q : ℚ) : ℚ :=
  if q < t1 then valueAt 1 (startEvents t0 M) q
  else valueAt 1 (stopEvents t0 t1 M) q

/-- The rendered envelope as a real function of real time: attack ramp on
`[t0, t0+0.02]`, decay ramp on `[t0+0.02, t0+0.03]`, sustain hold up to
the stop time `t1`, release ramp on `[t1, t1+0.5]`, then 0. -/
noncomputable def envSeg (t0 t1 M : ℚ) (t : ℝ) : ℝ :=
  if t ≤ ((t0 : ℚ) : ℝ) then 0
  else if t ≤ ((t0 + 0.02 : ℚ) : ℝ) then (t - (t0 : ℝ)) / 0.02 * (M : ℝ)
  else if t ≤ ((t0 + 0.02 + 0.01 : ℚ) : ℝ) then
    (M : ℝ) + (t - ((t0 : ℝ) + 0.02)) / 0.01 * (0.5 * (M : ℝ) - (M : ℝ))
  else if t ≤ ((t1 : ℚ) : ℝ) then 0.5 * (M : ℝ)
  else if t ≤ ((t1 + 0.5 : ℚ) : ℝ) then 0.5 * (M : ℝ) * (1 - (t - (t1 : ℝ)) / 0.5)
  else 0

/-- Number of registry entries for a note. -/
def countNote (reg : Registry) (note : ℤ) : ℕ := reg.countP (fun p => p.1 == note)

/-- The registry invariant: at most one live voice per note number. -/
def atMostOne (reg : Registry) : Prop := ∀ note : ℤ, countNote reg note ≤ 1

/-- Peak amplitude stored for a note, if any. -/
def storedAmp (reg : Registry) (note : ℤ) : Option ℚ :=
  (reg.lookup note).map (fun w => w.voice.maxAmp)

/-- Frequency stored for a note, if any. -/
def storedFreq (reg : Registry) (note : ℤ) : Option ℝ :=
  (reg.lookup note).map (fun w => w.voice.frequency)

/-- The world state reached by constructing at `t0`, starting, and
stopping at `t1` (the value of `stoppedVoice`, written out). -/
def stoppedWorld (f : ℝ) (M t0 t1 : ℚ) : World :=
  { time := t1,
    nodes := [
      { Node.newOsc f with
        onended := true, started := true, stopAt := some (t1 + 0.5 + 0.01) },
      { Node.newOsc (2 * f) with
        sawtooth := true, started := true, stopAt := some (t1 + 0.5 + 0.01) },
      { Node.newGain with gainValue := 0.5 },
      { Node.newOsc (3 * f) with
        sawtooth := true, started := true, stopAt := some (t1 + 0.5 + 0.01) },
      { Node.newGain with gainValue := 0.5 },
      { Node.newGain with gainEvents := stopEvents t0 t1 M }],
    connections := [(0, Dest.node 5), (1, Dest.node 2), (2, Dest.node 5),
      (3, Dest.node 4), (4, Dest.node 5), (5, Dest.output)],
    voice := { Voice.construct f M with
      osc := some 0, osc2 := some 1, osc3 := some 3,
      osc2scale := some 2, osc3scale := some 4, ampEnv := some 5 } }

/-- The world state after the fundamental's ended event has run `dispose`:
every node disconnected exactly once, the graph empty, every reference
released. -/
def disposedWorld (f : ℝ) (M t0 t1 t2 : ℚ) : World :=
  { time := t2,
    nodes := [
      { Node.newOsc f with
        onended := true, started := true, stopAt := some (t1 + 0.5 + 0.01),
        endedFired := true, disconnectCount := 1 },
      { Node.newOsc (2 * f) with
        sawtooth := true, started := true, stopAt := some (t1 + 0.5 + 0.01),
        disconnectCount := 1 },
      { Node.newGain with gainValue := 0.5, disconnectCount := 1 },
      { Node.newOsc (3 * f) with
        sawtooth := true, started := true, stopAt := some (t1 + 0.5 + 0.01),
        disconnectCount := 1 },
      { Node.newGain with gainValue := 0.5, disconnectCount := 1 },
      { Node.newGain with gainEvents := stopEvents t0 t1 M, disconnectCount := 1 }],
    connections := [],
    voice := Voice.construct f M }

/-- C3: `start()` initialises the envelope gain to 0 at the current time
and schedules exactly the two-segment ramp 0 → `maxAmp` over `attack`
seconds then `maxAmp` → `sustain·maxAmp` over `decay` seconds, with the
constants fixed at construction: attack 0.02 s, decay 0.01 s, sustain
0.5, release 0.5 s. -/
theorem voice_start_envelope_schedule (f : ℝ) (M t0 : ℚ) :
    ampEnvEvents (Voice.start (mkWorld t0 (Voice.construct f M))) =
      some [AutoEvent.setValue t0 0,
            AutoEvent.linearRamp (t0 + 0.02) M,
            AutoEvent.linearRamp (t0 + 0.02 + 0.01) (0.5 * M)] ∧
    (Voice.construct f M).attack = 0.02 ∧ (Voice.construct f M).decay = 0.01 ∧
    (Voice.construct f M).sustain = 0.5 ∧ (Voice.construct f M).release = 0.5 :=
  ⟨rfl, rfl, rfl, rfl, rfl⟩

/-- C2: on a started voice, `stop()` at time `t1` first cancels the
still-pending envelope events (only events strictly before `t1`
survive), then pins the envelope's current instantaneous value at `t1`,
then schedules a linear ramp from that snapshot to 0 ending at
`t1 + 0.5`, and schedules all three sources to halt at exactly
`t1 + 0.5 + 0.01` (release plus the 10 ms guard). -/
theorem voice_stop_cancel_pin_ramp_halt (f : ℝ) (M t0 t1 : ℚ) :
    (stoppedVoice f M t0 t1).bind ampEnvEvents = some (stopEvents t0 t1 M) ∧
    (stoppedVoice f M t0 t1).map haltTimes =
      some [some (t1 + 0.5 + 0.01), some (t1 + 0.5 + 0.01), some (t1 + 0.5 + 0.01)] :=
  ⟨rfl, rfl⟩

/-- C7 counterexample: constructing a Voice with frequency −10 and
amplitude 1.5 does not fail and does not clamp — the constructor stores
exactly these values, contradicting the claim that invalid parameters
are rejected with a validation error. -/
theorem voice_construct_accepts_invalid :
    (Voice.construct (-10) 1.5).frequency = -10 ∧
    (Voice.construct (-10) 1.5).maxAmp = 1.5 :=
  ⟨rfl, rfl⟩

/-- C7 amended: the constructor performs no validation at all — for every
frequency and amplitude, including non-positive frequencies and
amplitudes outside [0, 1], construction succeeds and stores the values
unchanged (neither rejected nor clamped). -/
theorem voice_construct_stores_unvalidated (f : ℝ) (M : ℚ) :
    (Voice.construct f M).frequency = f ∧ (Voice.construct f M).maxAmp = M :=
  ⟨rfl, rfl⟩

/-- C8 counterexample: calling `stop()` before `start()` does crash — the
envelope stage reference is still unset, so the dereference
`this.ampEnv.gain` fails (modelled by `Voice.stop` returning `none`) at
the concrete input of a freshly constructed voice. -/
theorem voice_stop_before_start_crashes :
    Voice.stop (mkWorld 0 (Voice.construct 440 0.5)) = none :=
  rfl

/-- C1: after `stop()` at `t1`, once the host clock passes
`t1 + release + guard = t1 + 0.5 + 0.01`, the fundamental source's ended
event runs `dispose` automatically, exactly once: nothing is disposed
before the halt time; at any later time every one of the six owned nodes
(three sources, two harmonic attenuation stages, the envelope stage) has
been disconnected exactly once, every connection is gone, every owned
reference is released, and advancing the clock further disposes nothing
again. -/
theorem voice_auto_dispose_exactly_once (f : ℝ) (M t0 t1 t2 : ℚ)
    (h2 : t1 + 0.5 + 0.01 ≤ t2) :
    stoppedVoice f M t0 t1 = some (stoppedWorld f M t0 t1) ∧
    ((stoppedWorld f M t0 t1).nodes.get? 0).map Node.onended = some true ∧
    ((stoppedWorld f M t0 t1).nodes.get? 0).map Node.stopAt =
      some (some (t1 + 0.5 + 0.01)) ∧
    (∀ t, t < t1 + 0.5 + 0.01 → World.advanceTo t (stoppedWorld f M t0 t1) =
      some { stoppedWorld f M t0 t1 with time := t }) ∧
    World.advanceTo t2 (stoppedWorld f M t0 t1) = some (disposedWorld f M t0 t1 t2) ∧
    lifecycle f M t0 t1 t2 = some (disposedWorld f M t0 t1 t2) ∧
    (disposedWorld f M t0 t1 t2).voice.osc = none ∧
    (disposedWorld f M t0 t1 t2).voice.osc2 = none ∧
    (disposedWorld f M t0 t1 t2).voice.osc3 = none ∧
    (disposedWorld f M t0 t1 t2).voice.osc2scale = none ∧
    (disposedWorld f M t0 t1 t2).voice.osc3scale = none ∧
    (disposedWorld f M t0 t1 t2).voice.ampEnv = none ∧
    (disposedWorld f M t0 t1 t2).connections = [] ∧
    (disposedWorld f M t0 t1 t2).nodes.map Node.disconnectCount = [1, 1, 1, 1, 1, 1] ∧
    ((disposedWorld f M t0 t1 t2).nodes.get? 0).map Node.endedFired = some true ∧
    (∀ t, World.advanceTo t (disposedWorld f M t0 t1 t2) =
      some { disposedWorld f M t0 t1 t2 with time := t }) := by
  have hfind : findFired t2 (stoppedWorld f M t0 t1).nodes 0 = some 0 := by
    simp [stoppedWorld, findFired, endedDue, Node.newOsc, decide_eq_true h2]
  have hadv : World.advanceTo t2 (stoppedWorld f M t0 t1) =
      some (disposedWorld f M t0 t1 t2) := by
    unfold World.advanceTo
    rw [hfind]
    rfl
  refine ⟨rfl, rfl, rfl, ?_, hadv, ?_, rfl, rfl, rfl, rfl, rfl, rfl, rfl, rfl, rfl, ?_⟩
  · intro t ht
    have hf : decide (t1 + 0.5 + 0.01 ≤ t) = false := decide_eq_false (by linarith)
    have hn : findFired t (stoppedWorld f M t0 t1).nodes 0 = none := by
      simp [stoppedWorld, findFired, endedDue, Node.newOsc, Node.newGain, hf]
    unfold World.advanceTo
    rw [hn]
  · show (stoppedVoice f M t0 t1).bind (World.advanceTo t2) = _
    exact hadv
  · intro t
    have hn : findFired t (disposedWorld f M t0 t1 t2).nodes 0 = none := by
      simp [disposedWorld, findFired, endedDue, Node.newOsc, Node.newGain]
    unfold World.advanceTo
    rw [hn]

/-- C8 amended: calling `stop()` before `start()` dereferences the unset
envelope stage and fails; calling `stop()` a second time on a started
voice that has not yet been disposed completes without error. -/
theorem voice_stop_lifecycle (f : ℝ) (M t0 t1 : ℚ) :
    Voice.stop (mkWorld t0 (Voice.construct f M)) = none ∧
    ((stoppedVoice f M t0 t1).bind Voice.stop).isSome = true :=
  ⟨rfl, rfl⟩

/-- If `lookup` misses, no entry has that key. -/
theorem countNote_eq_zero_of_lookup_none (reg : Registry) (note : ℤ)
    (h : reg.lookup note = none) : countNote reg note = 0 := by
  induction reg with
  | nil => rfl
  | cons p rest ih =>
    rcases p with ⟨k, w⟩
    rw [List.lookup_cons] at h
    by_cases hk : note = k
    · subst hk; simp at h
    · have hb : (note == k) = false := beq_eq_false_iff_ne.mpr hk
      rw [hb] at h
      simp only [countNote, List.countP_cons] at *
      have hb2 : ((k, w).1 == note) = false := beq_eq_false_iff_ne.mpr (Ne.symm hk)
      simp [hb2, ih h]

/-- Adding an entry for `note` raises its count by one. -/
theorem countNote_cons_self (reg : Registry) (note : ℤ) (w : World) :
    countNote ((note, w) :: reg) note = countNote reg note + 1 := by
  simp [countNote, List.countP_cons]

/-- Adding an entry for `note` leaves other counts alone. -/
theorem countNote_cons_other (reg : Registry) (note m : ℤ) (w : World) (hm : m ≠ note) :
    countNote ((note, w) :: reg) m = countNote reg m := by
  have hb : ((note, w).1 == m) = false := beq_eq_false_iff_ne.mpr (Ne.symm hm)
  simp [countNote, List.countP_cons, hb]

/-- Deleting a key removes every entry for it. -/
theorem lookup_filter_self (reg : Registry) (note : ℤ) :
    (reg.filter (fun p => p.1 != note)).lookup note = none := by
  induction reg with
  | nil => rfl
  | cons p rest ih =>
    rcases p with ⟨k, w⟩
    by_cases hk : k = note
    · subst hk
      simpa [List.filter, bne_self_eq_false] using ih
    · have hb : ((k, w).1 != note) = true := bne_iff_ne.mpr hk
      have hb2 : (note == k) = false := beq_eq_false_iff_ne.mpr (Ne.symm hk)
      simp only [List.filter, hb]
      rw [List.lookup_cons, hb2]
      exact ih

/-- Deleting a key leaves every other key's entry alone. -/
theorem lookup_filter_other (reg : Registry) (note m : ℤ) (hm : m ≠ note) :
    (reg.filter (fun p => p.1 != note)).lookup m = reg.lookup m := by
  induction reg with
  | nil => rfl
  | cons p rest ih =>
    rcases p with ⟨k, w⟩
    by_cases hk : k = note
    · subst hk
      have hb2 : (m == k) = false := beq_eq_false_iff_ne.mpr hm
      simp only [List.filter, bne_self_eq_false]
      rw [List.lookup_cons, hb2]
      exact ih
    · have hb : ((k, w).1 != note) = true := bne_iff_ne.mpr hk
      simp only [List.filter, hb]
      rw [List.lookup_cons, List.lookup_cons]
      cases m == k with
      | true => rfl
      | false => exact ih

/-- C4: the registry holds at most one live voice per note: `startNote`
and `stopNote` preserve the at-most-one invariant, a `startNote` for a
note that already has an entry is a no-op (the registry, including the
stored voice, is unchanged), and two `startNote` calls for a fresh note
without an intervening `stopNote` leave exactly one entry for it. -/
theorem registry_at_most_one_voice (reg : Registry) (t t' : ℚ) (note : ℤ) (rnd rnd' : ℚ)
    (h : atMostOne reg) :
    atMostOne (startNote reg t note rnd) ∧
    atMostOne (stopNote reg note).1 ∧
    ((reg.lookup note).isSome = true → startNote reg t note rnd = reg) ∧
    (reg.lookup note = none →
      startNote (startNote reg t note rnd) t' note rnd' = startNote reg t note rnd ∧
      countNote (startNote (startNote reg t note rnd) t' note rnd') note = 1) := by
  refine ⟨?_, ?_, ?_, ?_⟩
  · cases hl : reg.lookup note with
    | some w => simpa [startNote, hl] using h
    | none =>
      intro m
      simp only [startNote, hl]
      by_cases hm : m = note
      · subst hm
        rw [countNote_cons_self, countNote_eq_zero_of_lookup_none reg m hl]
      · rw [countNote_cons_other reg note m _ hm]
        exact h m
  · cases hl : reg.lookup note with
    | none => simpa [stopNote, hl] using h
    | some w =>
      intro m
      simp only [stopNote, hl]
      exact le_trans (List.Sublist.countP_le _ (List.filter_sublist reg)) (h m)
  · intro hs
    rcases Option.isSome_iff_exists.mp hs with ⟨w, hw⟩
    simp [startNote, hw]
  · intro hl
    constructor
    · simp only [startNote, hl, List.lookup_cons_self]
    · simp only [startNote, hl, List.lookup_cons_self]
      rw [countNote_cons_self, countNote_eq_zero_of_lookup_none reg note hl]

/-- C4 witness at a concrete registry. -/
theorem registry_at_most_one_voice_witness :
    atMostOne [((60 : ℤ), mkWorld 0 (Voice.construct 440 0.5))] ∧
    atMostOne (startNote [((60 : ℤ), mkWorld 0 (Voice.construct 440 0.5))] 1 61 0.25) := by
  have hA : atMostOne [((60 : ℤ), mkWorld 0 (Voice.construct 440 0.5))] := by
    intro n
    simp only [countNote, List.countP_cons, List.countP_nil]
    split <;> simp
  exact ⟨hA, (registry_at_most_one_voice _ 1 1 61 0.25 0.25 hA).1⟩

/-- C5: `stopNote` on a note with no entry is a no-op (registry unchanged,
no `stop` call made); otherwise it calls the stored voice's `stop` and
immediately removes the entry — right after the call the registry has no
entry for that note, while every other entry is unchanged. -/
theorem noteOff_stops_and_removes (reg : Registry) (note : ℤ) :
    (reg.lookup note = none → stopNote reg note = (reg, none)) ∧
    (∀ w, reg.lookup note = some w →
      (stopNote reg note).2 = some (Voice.stop w) ∧
      (stopNote reg note).1.lookup note = none ∧
      (∀ m, m ≠ note → (stopNote reg note).1.lookup m = reg.lookup m)) := by
  constructor
  · intro hl
    simp [stopNote, hl]
  · intro w hl
    refine ⟨by simp [stopNote, hl], ?_, ?_⟩
    · simp only [stopNote, hl]
      exact lookup_filter_self reg note
    · intro m hm
      simp only [stopNote, hl]
      exact lookup_filter_other reg note m hm

/-- C5 witness at a concrete one-entry registry. -/
theorem noteOff_stops_and_removes_witness :
    ([((60 : ℤ), mkWorld 0 (Voice.construct 440 0.5))].lookup 60 =
      some (mkWorld 0 (Voice.construct 440 0.5))) ∧
    (stopNote [((60 : ℤ), mkWorld 0 (Voice.construct 440 0.5))] 60).1.lookup 60 = none :=
  ⟨rfl, ((noteOff_stops_and_removes [((60 : ℤ), mkWorld 0 (Voice.construct 440 0.5))]
      60).2 _ rfl).2.1⟩

/-- C9 counterexample: `startNote` takes no amplitude argument — the
stored peak amplitude is the hidden `Math.random()` draw, so two calls
that are identical in their caller-visible argument (the note) store
different amplitudes, and the stored frequency is derived via `mtof`,
not passed by the caller.  This contradicts the claim that the voice is
constructed with "the frequency and amplitude given to noteOn". -/
theorem startNote_amplitude_not_given :
    storedAmp (startNote [] 0 60 0.25) 60 = some 0.25 ∧
    storedAmp (startNote [] 0 60 0.5) 60 = some 0.5 ∧
    (0.25 : ℚ) ≠ 0.5 := by
  refine ⟨rfl, rfl, by norm_num⟩

/-- C9 amended: when `startNote` finds no entry for the note, the voice
it stores has frequency exactly `mtof note` and peak amplitude exactly
the `Math.random()` draw made during the call (not caller-supplied
values — `startNote` has no frequency or amplitude parameter). -/
theorem startNote_stores_mtof_and_draw (reg : Registry) (t : ℚ) (note : ℤ) (rnd : ℚ)
    (h : reg.lookup note = none) :
    storedFreq (startNote reg t note rnd) note = some (mtof note) ∧
    storedAmp (startNote reg t note rnd) note = some rnd := by
  constructor <;> simp [startNote, h, storedFreq, storedAmp, Voice.start, mkWorld,
    Voice.construct, World.modifyNode]

/-- C9 witness at the empty registry. -/
theorem startNote_stores_mtof_and_draw_witness :
    (([] : Registry).lookup 60 = none) ∧
    storedFreq (startNote [] 0 60 0.25) 60 = some (mtof 60) :=
  ⟨rfl, (startNote_stores_mtof_and_draw [] 0 60 0.25 rfl).1⟩

/-- C1 witness at a concrete lifecycle. -/
theorem voice_auto_dispose_exactly_once_witness :
    ((1 : ℚ) + 0.5 + 0.01 ≤ 2) ∧
    lifecycle 440 0.5 0 1 2 = some (disposedWorld 440 0.5 0 1 2) :=
  ⟨by norm_num, (voice_auto_dispose_exactly_once 440 0.5 0 1 2 (by norm_num)).2.2.2.2.2.1⟩

/-- C10: `mtof 69 = 440` exactly, `mtof 60` is within 0.01 Hz of 261.63,
and `mtof` is strictly monotonically increasing in the note number. -/
theorem mtof_spec :
    mtof 69 = 440 ∧ |mtof 60 - 261.63| ≤ 0.01 ∧ StrictMono mtof := by
  refine ⟨?_, ?_, ?_⟩
  · have h : (((69 : ℤ) : ℝ) - 69) / 12 = 0 := by norm_num
    rw [mtof, h, Real.rpow_zero, mul_one]
  · have hx0 : (0 : ℝ) < (2 : ℝ) ^ ((3 : ℝ) / 4) :=
      Real.rpow_pos_of_pos two_pos _
    have hx4 : ((2 : ℝ) ^ ((3 : ℝ) / 4)) ^ (4 : ℕ) = 8 := by
      rw [← Real.rpow_natCast ((2 : ℝ) ^ ((3 : ℝ) / 4)) 4,
        ← Real.rpow_mul (by norm_num : (0 : ℝ) ≤ 2)]
      have h3 : (3 : ℝ) / 4 * ((4 : ℕ) : ℝ) = ((3 : ℕ) : ℝ) := by norm_num
      rw [h3, Real.rpow_natCast]
      norm_num
    have hm : mtof 60 = 440 * ((2 : ℝ) ^ ((3 : ℝ) / 4))⁻¹ := by
      have h : (((60 : ℤ) : ℝ) - 69) / 12 = -((3 : ℝ) / 4) := by norm_num
      rw [mtof, h, Real.rpow_neg (by norm_num : (0 : ℝ) ≤ 2)]
    have hc : ((440 / 261.64 : ℝ)) ^ (4 : ℕ) < 8 := by norm_num
    have hd : (8 : ℝ) < ((440 / 261.62 : ℝ)) ^ (4 : ℕ) := by norm_num
    have hcx : (440 / 261.64 : ℝ) < (2 : ℝ) ^ ((3 : ℝ) / 4) :=
      lt_of_pow_lt_pow_left₀ 4 hx0.le (by rw [hx4]; exact hc)
    have hxd : (2 : ℝ) ^ ((3 : ℝ) / 4) < (440 / 261.62 : ℝ) :=
      lt_of_pow_lt_pow_left₀ 4 (by norm_num) (by rw [hx4]; exact hd)
    have hiu : ((2 : ℝ) ^ ((3 : ℝ) / 4))⁻¹ < (440 / 261.64 : ℝ)⁻¹ :=
      inv_strictAnti₀ (by norm_num) hcx
    have hil : ((440 / 261.62 : ℝ))⁻¹ < ((2 : ℝ) ^ ((3 : ℝ) / 4))⁻¹ :=
      inv_strictAnti₀ hx0 hxd
    rw [hm]
    rw [abs_le]
    constructor
    · nlinarith
    · nlinarith
  · intro a b hab
    have hcast : (a : ℝ) < (b : ℝ) := by exact_mod_cast hab
    have hx : ((a : ℝ) - 69) / 12 < ((b : ℝ) - 69) / 12 := by linarith
    have hlt := (Real.rpow_lt_rpow_left_iff one_lt_two).mpr hx
    exact mul_lt_mul_of_pos_left hlt (by norm_num : (0 : ℝ) < 440)

/-- C10 witness: the strict monotonicity applied at 60 < 69. -/
theorem mtof_spec_witness : mtof 60 < mtof 69 :=
  mtof_spec.2.2 (by norm_num : (60 : ℤ) < 69)

/-- Attack region: on `[t0, t0+0.02)` the start schedule ramps linearly
from 0 to `M`. -/
theorem valueAt_start_attack (t0 M q : ℚ) (hq : t0 ≤ q) (hq2 : q < t0 + 0.02) :
    valueAt 1 (startEvents t0 M) q = (q - t0) / 0.02 * M := by
  simp only [valueAt, startEvents, valueFrom]
  rw [if_neg (by linarith : ¬ q < t0), if_pos hq2]
  have he : t0 + 0.02 - t0 = (0.02 : ℚ) := by ring
  rw [he]
  ring

/-- Decay region: on `[t0+0.02, t0+0.03)` the start schedule ramps
linearly from `M` to `0.5·M`. -/
theorem valueAt_start_decay (t0 M q : ℚ) (hq : t0 + 0.02 ≤ q) (hq2 : q < t0 + 0.02 + 0.01) :
    valueAt 1 (startEvents t0 M) q = M + (q - (t0 + 0.02)) / 0.01 * (0.5 * M - M) := by
  simp only [valueAt, startEvents, valueFrom]
  rw [if_neg (by linarith : ¬ q < t0), if_neg (by linarith : ¬ q < t0 + 0.02), if_pos hq2]
  have he : t0 + 0.02 + 0.01 - (t0 + 0.02) = (0.01 : ℚ) := by ring
  rw [he]
  ring

/-- Sustain region: from `t0+0.03` on the start schedule holds `0.5·M`. -/
theorem valueAt_start_sustain (t0 M q : ℚ) (hq : t0 + 0.02 + 0.01 ≤ q) :
    valueAt 1 (startEvents t0 M) q = 0.5 * M := by
  simp only [valueAt, startEvents, valueFrom]
  rw [if_neg (by linarith : ¬ q < t0), if_neg (by linarith : ¬ q < t0 + 0.02),
    if_neg (by linarith : ¬ q < t0 + 0.02 + 0.01)]

/-- The start schedule evaluated with the same boundary convention as the
closed-form envelope. -/
theorem valueAt_start_eval (t0 M q : ℚ) (hq : t0 ≤ q) :
    valueAt 1 (startEvents t0 M) q =
      if q ≤ t0 then 0
      else if q ≤ t0 + 0.02 then (q - t0) / 0.02 * M
      else if q ≤ t0 + 0.02 + 0.01 then M + (q - (t0 + 0.02)) / 0.01 * (0.5 * M - M)
      else 0.5 * M := by
  split_ifs with h1 h2 h3
  · have he : q = t0 := le_antisymm h1 hq
    subst he
    rw [valueAt_start_attack q M q le_rfl (by linarith)]
    ring
  · by_cases hlt : q < t0 + 0.02
    · exact valueAt_start_attack t0 M q hq hlt
    · have he : q = t0 + 0.02 := le_antisymm h2 (not_lt.mp hlt)
      rw [valueAt_start_decay t0 M q (by linarith) (by linarith)]
      rw [he]
      ring
  · by_cases hlt : q < t0 + 0.02 + 0.01
    · exact valueAt_start_decay t0 M q (by linarith) hlt
    · have he : q = t0 + 0.02 + 0.01 := le_antisymm h3 (not_lt.mp hlt)
      rw [valueAt_start_sustain t0 M q (by linarith)]
      rw [he]
      ring
  · exact valueAt_start_sustain t0 M q (by linarith)

/-- Release region: from the stop time on, the post-stop schedule ramps
linearly from the pinned sustain value `0.5·M` down to 0 at `t1 + 0.5`
and holds 0 afterwards. -/
theorem valueAt_stop_release (t0 t1 M : ℚ) (h : t0 + 0.02 + 0.01 ≤ t1) (q : ℚ)
    (hq : t1 ≤ q) :
    valueAt 1 (stopEvents t0 t1 M) q =
      if q < t1 + 0.5 then
        0.5 * M + (0 - 0.5 * M) * (q - t1) / (t1 + 0.5 - t1)
      else 0 := by
  have hsnap : valueAt 1 (startEvents t0 M) t1 = 0.5 * M :=
    valueAt_start_sustain t0 M t1 h
  by_cases h3 : t0 + 0.02 + 0.01 < t1
  · have e : stopEvents t0 t1 M =
        [AutoEvent.setValue t0 0, AutoEvent.linearRamp (t0 + 0.02) M,
         AutoEvent.linearRamp (t0 + 0.02 + 0.01) (0.5 * M),
         AutoEvent.setValue t1 (0.5 * M), AutoEvent.linearRamp (t1 + 0.5) 0] := by
      rw [stopEvents, hsnap]
      simp only [startEvents, List.filter_cons, List.filter_nil, AutoEvent.time,
        decide_eq_true (show t0 < t1 by linarith),
        decide_eq_true (show t0 + 0.02 < t1 by linarith),
        decide_eq_true h3, if_true]
      rfl
    rw [e]
    simp only [valueAt, valueFrom]
    rw [if_neg (by linarith : ¬ q < t0), if_neg (by linarith : ¬ q < t0 + 0.02),
      if_neg (by linarith : ¬ q < t0 + 0.02 + 0.01), if_neg (by linarith : ¬ q < t1)]
  · have he3 : t1 = t0 + 0.02 + 0.01 := le_antisymm (by linarith) h
    have e : stopEvents t0 t1 M =
        [AutoEvent.setValue t0 0, AutoEvent.linearRamp (t0 + 0.02) M,
         AutoEvent.setValue t1 (0.5 * M), AutoEvent.linearRamp (t1 + 0.5) 0] := by
      rw [stopEvents, hsnap]
      simp only [startEvents, List.filter_cons, List.filter_nil, AutoEvent.time,
        decide_eq_true (show t0 < t1 by linarith),
        decide_eq_true (show t0 + 0.02 < t1 by linarith),
        decide_eq_false (show ¬ t0 + 0.02 + 0.01 < t1 by linarith), if_true]
      rfl
    rw [e]
    simp only [valueAt, valueFrom]
    rw [if_neg (by linarith : ¬ q < t0), if_neg (by linarith : ¬ q < t0 + 0.02),
      if_neg (by linarith : ¬ q < t1)]

/-- The rendered envelope of the model agrees with the real closed-form
piecewise-linear envelope at every rational time from the start on. -/
theorem renderedEnv_eq_envSeg (t0 t1 M : ℚ) (h : t0 + 0.02 + 0.01 ≤ t1) (q : ℚ)
    (hq : t0 ≤ q) :
    ((renderedEnv t0 t1 M q : ℚ) : ℝ) = envSeg t0 t1 M (q : ℝ) := by
  by_cases hq1 : q < t1
  · rw [renderedEnv, if_pos hq1, valueAt_start_eval t0 M q hq, envSeg]
    by_cases h1 : q ≤ t0
    · rw [if_pos h1, if_pos (Rat.cast_le.mpr h1)]
      norm_num
    · rw [if_neg h1, if_neg (fun hc => h1 (Rat.cast_le.mp hc))]
      by_cases h2 : q ≤ t0 + 0.02
      · rw [if_pos h2, if_pos (Rat.cast_le.mpr h2)]
        push_cast
        ring
      · rw [if_neg h2, if_neg (fun hc => h2 (Rat.cast_le.mp hc))]
        by_cases h3 : q ≤ t0 + 0.02 + 0.01
        · rw [if_pos h3, if_pos (Rat.cast_le.mpr h3)]
          push_cast
          ring
        · rw [if_neg h3, if_neg (fun hc => h3 (Rat.cast_le.mp hc)),
            if_pos (Rat.cast_le.mpr hq1.le)]
          push_cast
          ring
  · have hq1' : t1 ≤ q := not_lt.mp hq1
    rw [renderedEnv, if_neg hq1, valueAt_stop_release t0 t1 M h q hq1', envSeg]
    rw [if_neg (fun hc => (show ¬ q ≤ t0 by linarith) (Rat.cast_le.mp hc)),
      if_neg (fun hc => (show ¬ q ≤ t0 + 0.02 by linarith) (Rat.cast_le.mp hc))]
    by_cases hb3 : q ≤ t0 + 0.02 + 0.01
    · have he1 : q = t0 + 0.02 + 0.01 := le_antisymm hb3 (by linarith)
      have he2 : t1 = t0 + 0.02 + 0.01 := le_antisymm (by linarith) h
      rw [if_pos (Rat.cast_le.mpr hb3), if_pos (show q < t1 + 0.5 by linarith)]
      rw [he1, he2]
      push_cast
      ring
    · rw [if_neg (fun hc => hb3 (Rat.cast_le.mp hc))]
      by_cases hb4 : q ≤ t1
      · have he : q = t1 := le_antisymm hb4 hq1'
        rw [if_pos (Rat.cast_le.mpr hb4), if_pos (show q < t1 + 0.5 by linarith)]
        rw [he]
        push_cast
        ring
      · rw [if_neg (fun hc => hb4 (Rat.cast_le.mp hc))]
        by_cases hb5 : q < t1 + 0.5
        · rw [if_pos hb5, if_pos (Rat.cast_le.mpr hb5.le)]
          push_cast
          ring
        · rw [if_neg hb5]
          by_cases hb6 : q ≤ t1 + 0.5
          · have he : q = t1 + 0.5 := le_antisymm hb6 (not_lt.mp hb5)
            rw [if_pos (Rat.cast_le.mpr hb6), he]
            push_cast
            ring
          · rw [if_neg (fun hc => hb6 (Rat.cast_le.mp hc))]
            norm_num

/-- The closed-form envelope is continuous on all of ℝ: each linear
segment is continuous and adjacent segments agree at every breakpoint. -/
theorem envSeg_continuous (t0 t1 M : ℚ) (h : t0 + 0.02 + 0.01 ≤ t1) :
    Continuous (envSeg t0 t1 M) := by
  have c5 : Continuous (fun t : ℝ =>
      if t ≤ ((t1 + 0.5 : ℚ) : ℝ) then 0.5 * (M : ℝ) * (1 - (t - (t1 : ℝ)) / 0.5) else 0) := by
    refine Continuous.if_le ?_ continuous_const continuous_id continuous_const ?_
    · fun_prop
    · intro x hx
      rw [hx]
      push_cast
      ring
  have c4 : Continuous (fun t : ℝ =>
      if t ≤ ((t1 : ℚ) : ℝ) then 0.5 * (M : ℝ)
      else if t ≤ ((t1 + 0.5 : ℚ) : ℝ) then 0.5 * (M : ℝ) * (1 - (t - (t1 : ℝ)) / 0.5)
      else 0) := by
    refine Continuous.if_le continuous_const c5 continuous_id continuous_const ?_
    · intro x hx
      rw [hx, if_pos (Rat.cast_le.mpr (by linarith : t1 ≤ t1 + 0.5))]
      ring
  have c3 : Continuous (fun t : ℝ =>
      if t ≤ ((t0 + 0.02 + 0.01 : ℚ) : ℝ) then
        (M : ℝ) + (t - ((t0 : ℝ) + 0.02)) / 0.01 * (0.5 * (M : ℝ) - (M : ℝ))
      else if t ≤ ((t1 : ℚ) : ℝ) then 0.5 * (M : ℝ)
      else if t ≤ ((t1 + 0.5 : ℚ) : ℝ) then 0.5 * (M : ℝ) * (1 - (t - (t1 : ℝ)) / 0.5)
      else 0) := by
    refine Continuous.if_le ?_ c4 continuous_id continuous_const ?_
    · fun_prop
    · intro x hx
      rw [hx, if_pos (Rat.cast_le.mpr h)]
      push_cast
      ring
  have c2 : Continuous (fun t : ℝ =>
      if t ≤ ((t0 + 0.02 : ℚ) : ℝ) then (t - (t0 : ℝ)) / 0.02 * (M : ℝ)
      else if t ≤ ((t0 + 0.02 + 0.01 : ℚ) : ℝ) then
        (M : ℝ) + (t - ((t0 : ℝ) + 0.02)) / 0.01 * (0.5 * (M : ℝ) - (M : ℝ))
      else if t ≤ ((t1 : ℚ) : ℝ) then 0.5 * (M : ℝ)
      else if t ≤ ((t1 + 0.5 : ℚ) : ℝ) then 0.5 * (M : ℝ) * (1 - (t - (t1 : ℝ)) / 0.5)
      else 0) := by
    refine Continuous.if_le ?_ c3 continuous_id continuous_const ?_
    · fun_prop
    · intro x hx
      rw [hx, if_pos (Rat.cast_le.mpr (by linarith : t0 + 0.02 ≤ t0 + 0.02 + 0.01))]
      push_cast
      ring
  refine Continuous.if_le continuous_const c2 continuous_id continuous_const ?_
  intro x hx
  rw [hx, if_pos (Rat.cast_le.mpr (by linarith : t0 ≤ t0 + 0.02))]
  ring

/-- Attack-segment values of the closed-form envelope. -/
theorem envSeg_eval_attack (t0 t1 M : ℚ) (x : ℝ) (hx : ((t0 : ℚ) : ℝ) ≤ x)
    (hx2 : x ≤ ((t0 + 0.02 : ℚ) : ℝ)) :
    envSeg t0 t1 M x = (x - (t0 : ℝ)) / 0.02 * (M : ℝ) := by
  rw [envSeg]
  by_cases h1 : x ≤ ((t0 : ℚ) : ℝ)
  · have he : x = ((t0 : ℚ) : ℝ) := le_antisymm h1 hx
    rw [if_pos h1, he]
    ring
  · rw [if_neg h1, if_pos hx2]

/-- Decay-segment values of the closed-form envelope. -/
theorem envSeg_eval_decay (t0 t1 M : ℚ) (x : ℝ) (hx : ((t0 + 0.02 : ℚ) : ℝ) ≤ x)
    (hx2 : x ≤ ((t0 + 0.02 + 0.01 : ℚ) : ℝ)) :
    envSeg t0 t1 M x =
      (M : ℝ) + (x - ((t0 : ℝ) + 0.02)) / 0.01 * (0.5 * (M : ℝ) - (M : ℝ)) := by
  have k1 : ((t0 : ℚ) : ℝ) < ((t0 + 0.02 : ℚ) : ℝ) :=
    Rat.cast_lt.mpr (by linarith)
  rw [envSeg, if_neg (by linarith : ¬ x ≤ ((t0 : ℚ) : ℝ))]
  by_cases h2 : x ≤ ((t0 + 0.02 : ℚ) : ℝ)
  · have he : x = ((t0 + 0.02 : ℚ) : ℝ) := le_antisymm h2 hx
    rw [if_pos h2, he]
    push_cast
    ring
  · rw [if_neg h2, if_pos hx2]

/-- Release-segment values of the closed-form envelope. -/
theorem envSeg_eval_release (t0 t1 M : ℚ) (h : t0 + 0.02 + 0.01 ≤ t1) (x : ℝ)
    (hx : ((t1 : ℚ) : ℝ) ≤ x) (hx2 : x ≤ ((t1 + 0.5 : ℚ) : ℝ)) :
    envSeg t0 t1 M x = 0.5 * (M : ℝ) * (1 - (x - (t1 : ℝ)) / 0.5) := by
  have hc : ((t0 + 0.02 + 0.01 : ℚ) : ℝ) ≤ ((t1 : ℚ) : ℝ) := Rat.cast_le.mpr h
  have k1 : ((t0 : ℚ) : ℝ) < ((t0 + 0.02 + 0.01 : ℚ) : ℝ) :=
    Rat.cast_lt.mpr (by linarith)
  have k2 : ((t0 + 0.02 : ℚ) : ℝ) < ((t0 + 0.02 + 0.01 : ℚ) : ℝ) :=
    Rat.cast_lt.mpr (by linarith)
  rw [envSeg, if_neg (by linarith : ¬ x ≤ ((t0 : ℚ) : ℝ)),
    if_neg (by linarith : ¬ x ≤ ((t0 + 0.02 : ℚ) : ℝ))]
  by_cases h3 : x ≤ ((t0 + 0.02 + 0.01 : ℚ) : ℝ)
  · have e1 : x = ((t0 + 0.02 + 0.01 : ℚ) : ℝ) := le_antisymm h3 (le_trans hc hx)
    have e2 : ((t1 : ℚ) : ℝ) = ((t0 + 0.02 + 0.01 : ℚ) : ℝ) := by
      apply le_antisymm ?_ hc
      rw [← e1]
      exact hx
    rw [if_pos h3, e1, e2]
    push_cast
    ring
  · rw [if_neg h3]
    by_cases h4 : x ≤ ((t1 : ℚ) : ℝ)
    · have he : x = ((t1 : ℚ) : ℝ) := le_antisymm h4 hx
      rw [if_pos h4, he]
      ring
    · rw [if_neg h4, if_pos hx2]

/-- The attack segment is monotone increasing (for nonnegative peak). -/
theorem envSeg_monotone_attack (t0 t1 M : ℚ) (hM0 : 0 ≤ M) :
    MonotoneOn (envSeg t0 t1 M) (Set.Icc ((t0 : ℚ) : ℝ) ((t0 + 0.02 : ℚ) : ℝ)) := by
  intro x hx y hy hxy
  rw [envSeg_eval_attack t0 t1 M x hx.1 hx.2, envSeg_eval_attack t0 t1 M y hy.1 hy.2]
  have hM0R : (0 : ℝ) ≤ (M : ℝ) := by exact_mod_cast hM0
  exact mul_le_mul_of_nonneg_right
    ((div_le_div_iff_of_pos_right (by norm_num : (0 : ℝ) < 0.02)).mpr (by linarith)) hM0R

/-- The decay segment is monotone decreasing (for nonnegative peak). -/
theorem envSeg_antitone_decay (t0 t1 M : ℚ) (hM0 : 0 ≤ M) :
    AntitoneOn (envSeg t0 t1 M)
      (Set.Icc ((t0 + 0.02 : ℚ) : ℝ) ((t0 + 0.02 + 0.01 : ℚ) : ℝ)) := by
  intro x hx y hy hxy
  rw [envSeg_eval_decay t0 t1 M x hx.1 hx.2, envSeg_eval_decay t0 t1 M y hy.1 hy.2]
  have hM0R : (0 : ℝ) ≤ (M : ℝ) := by exact_mod_cast hM0
  have hcoef : 0.5 * (M : ℝ) - (M : ℝ) ≤ 0 := by linarith
  have hdiv : (x - ((t0 : ℝ) + 0.02)) / 0.01 ≤ (y - ((t0 : ℝ) + 0.02)) / 0.01 :=
    (div_le_div_iff_of_pos_right (by norm_num : (0 : ℝ) < 0.01)).mpr (by linarith)
  have := mul_le_mul_of_nonpos_right hdiv hcoef
  linarith

/-- The release segment is monotone decreasing (for nonnegative peak). -/
theorem envSeg_antitone_release (t0 t1 M : ℚ) (hM0 : 0 ≤ M)
    (h : t0 + 0.02 + 0.01 ≤ t1) :
    AntitoneOn (envSeg t0 t1 M) (Set.Icc ((t1 : ℚ) : ℝ) ((t1 + 0.5 : ℚ) : ℝ)) := by
  intro x hx y hy hxy
  rw [envSeg_eval_release t0 t1 M h x hx.1 hx.2, envSeg_eval_release t0 t1 M h y hy.1 hy.2]
  have hM0R : (0 : ℝ) ≤ (M : ℝ) := by exact_mod_cast hM0
  have hdiv : (x - (t1 : ℝ)) / 0.5 ≤ (y - (t1 : ℝ)) / 0.5 :=
    (div_le_div_iff_of_pos_right (by norm_num : (0 : ℝ) < 0.5)).mpr (by linarith)
  have hmul : (0 : ℝ) ≤ 0.5 * (M : ℝ) := by linarith
  exact mul_le_mul_of_nonneg_left (by linarith) hmul

/-- C6: for a voice with valid parameters started at `t0` and stopped at
`t1` (after the decay has completed), the scheduled envelope — the
model's rendered value, which the real closed-form `envSeg` extends to
real time — is continuous everywhere, in particular at the boundaries
`t0+attack`, `t0+attack+decay` and the stop time, and is monotone within
each ramp segment (increasing on attack, decreasing on decay and
release). -/
theorem envelope_continuous_and_monotone (t0 t1 M : ℚ)
    (hM0 : 0 ≤ M) (hM1 : M ≤ 1) (h : t0 + 0.02 + 0.01 ≤ t1) :
    (∀ q : ℚ, t0 ≤ q → ((renderedEnv t0 t1 M q : ℚ) : ℝ) = envSeg t0 t1 M (q : ℝ)) ∧
    Continuous (envSeg t0 t1 M) ∧
    MonotoneOn (envSeg t0 t1 M) (Set.Icc ((t0 : ℚ) : ℝ) ((t0 + 0.02 : ℚ) : ℝ)) ∧
    AntitoneOn (envSeg t0 t1 M)
      (Set.Icc ((t0 + 0.02 : ℚ) : ℝ) ((t0 + 0.02 + 0.01 : ℚ) : ℝ)) ∧
    AntitoneOn (envSeg t0 t1 M) (Set.Icc ((t1 : ℚ) : ℝ) ((t1 + 0.5 : ℚ) : ℝ)) :=
  ⟨fun q hq => renderedEnv_eq_envSeg t0 t1 M h q hq,
   envSeg_continuous t0 t1 M h,
   envSeg_monotone_attack t0 t1 M hM0,
   envSeg_antitone_decay t0 t1 M hM0,
   envSeg_antitone_release t0 t1 M hM0 h⟩

/-- C6 witness at concrete parameters. -/
theorem envelope_continuous_and_monotone_witness :
    ((0 : ℚ) ≤ 0.5 ∧ (0.5 : ℚ) ≤ 1 ∧ (0 : ℚ) + 0.02 + 0.01 ≤ 1) ∧
    Continuous (envSeg 0 1 0.5) :=
  ⟨⟨by norm_num, by norm_num, by norm_num⟩,
   (envelope_continuous_and_monotone 0 1 0.5 (by norm_num) (by norm_num)
     (by norm_num)).2.1⟩
